import Mathlib

/-!
Verification of the masterblog application (`app.py`).

The application is a small CRUD blog: four HTTP handlers (`index`, `add`,
`delete`, `update`) over a single JSON backing file holding an array of
post objects with keys `id` (integer), `author`, `title`, `content`.

The embedding below models:
* the JSON document stored in the backing file as an inductive `Json`;
* a `Post` record, with the three text fields as `Option String` since the
  handlers write `request.form.get(...)` results (which may be `None`,
  serialized as JSON `null`) straight into the stored objects;
* the backing file as `Option Json` (`none` = the file is absent);
* each route handler as a function from the request data and the file
  state to a `Response` paired with the new file state.
-/

inductive Json where
  | null : Json
  | bool : Bool → Json
  | num : Int → Json
  | str : String → Json
  | arr : List Json → Json
  | obj : List (String × Json) → Json

/-- A blog post record as stored in the backing file.  The text fields are
`Option String`: `some s` stands for a JSON string, `none` for JSON `null`
(the value Python writes when a form field was absent). -/
structure Post where
  id : Int
  author : Option String
  title : Option String
  content : Option String
deriving DecidableEq, Repr

/-- Read a JSON value as a text field: a string or `null`. -/
def getStrField : Json → Option (Option String)
  | Json.str s => some (some s)
  | Json.null => some none
  | _ => none

/-- Read a JSON value as an integer field. -/
def getIntField : Json → Option Int
  | Json.num n => some n
  | _ => none

/-- Parse one JSON object into a `Post` (keys `id`, `author`, `title`,
`content`, as in the backing-file layout written by `save_posts`). -/
def parsePost (j : Json) : Option Post :=
  match j with
  | Json.obj fields =>
    match fields.lookup "id", fields.lookup "author",
          fields.lookup "title", fields.lookup "content" with
    | some jid, some ja, some jt, some jc =>
      match getIntField jid, getStrField ja, getStrField jt, getStrField jc with
      | some i, some a, some t, some c => some ⟨i, a, t, c⟩
      | _, _, _, _ => none
    | _, _, _, _ => none
  | _ => none

/-- Parse a list of JSON values into posts; fails if any element fails. -/
def parsePostList : List Json → Option (List Post)
  | [] => some []
  | j :: js =>
    match parsePost j, parsePostList js with
    | some p, some ps => some (p :: ps)
    | _, _ => none

/-- Parse a whole JSON document as the stored collection: an array of
post objects. -/
def parsePosts (j : Json) : Option (List Post) :=
  match j with
  | Json.arr xs => parsePostList xs
  | _ => none

/-- Serialize a text field back to JSON. -/
def encodeStrField : Option String → Json
  | some s => Json.str s
  | none => Json.null

/-- Serialize one post to a JSON object, in the key order `json.dump`
writes (`id`, `author`, `title`, `content`). -/
def encodePost (p : Post) : Json :=
  Json.obj [("id", Json.num p.id), ("author", encodeStrField p.author),
            ("title", encodeStrField p.title), ("content", encodeStrField p.content)]

/-- Serialize the whole collection to the JSON document `save_posts` writes. -/
def encodePosts (ps : List Post) : Json :=
  Json.arr (ps.map encodePost)

/-- `load_posts` (app.py lines 9-20): if the backing file is absent return
the empty list, otherwise parse its JSON content; a malformed file is an
unhandled error that surfaces as a server error. -/
def loadPosts (file : Option Json) : Except String (List Post) :=
  match file with
  | none => Except.ok []
  | some j =>
    match parsePosts j with
    | some posts => Except.ok posts
    | none => Except.error "malformed backing file"

/-- `save_posts` (app.py lines 23-32): overwrite the backing file with the
serialized collection, and return the new file state. -/
def savePosts (posts : List Post) : Option Json :=
  some (encodePosts posts)

inductive Method where
  | get : Method
  | post : Method
deriving DecidableEq, Repr

/-- The form data of a request: `request.form.get(k)` yields `none` when
the field is absent from the submission. -/
structure Form where
  author : Option String
  title : Option String
  content : Option String
deriving DecidableEq, Repr

/-- Python falsiness of a `request.form.get` result: `not x` holds when
the field is absent (`None`) or the empty string. -/
def isBlank : Option String → Bool
  | none => true
  | some s => s.isEmpty

inductive Response where
  | redirect : String → Response
  | html : String → Response
  | text : String → Nat → Response
  | serverError : String → Response
deriving DecidableEq, Repr

/-- `GET /` (app.py lines 35-44): load and render all posts. -/
def indexHandler (file : Option Json) : Response × Option Json :=
  match loadPosts file with
  | Except.error e => (Response.serverError e, file)
  | Except.ok _ => (Response.html "index.html", file)

/-- app.py line 69: `max([post["id"] for post in posts], default=0) + 1`. -/
def nextId (posts : List Post) : Int :=
  ((posts.map Post.id).max?).getD 0 + 1

/-- app.py lines 72-77: the dictionary built for the new post. -/
def newPost (form : Form) (posts : List Post) : Post :=
  ⟨nextId posts, form.author, form.title, form.content⟩

/-- `add` (app.py lines 47-89).  POST: validate that no required field is
blank (400 otherwise, before touching the file), load, append the new post
with the next id, save, redirect.  GET: render the blank form. -/
def addHandler (method : Method) (form : Form) (file : Option Json) :
    Response × Option Json :=
  match method with
  | Method.get => (Response.html "add.html", file)
  | Method.post =>
    if isBlank form.author || isBlank form.title || isBlank form.content then
      (Response.text "All fields are required." 400, file)
    else
      match loadPosts file with
      | Except.error e => (Response.serverError e, file)
      | Except.ok posts =>
        (Response.redirect "/", savePosts (posts ++ [newPost form posts]))

/-- app.py line 110: `[post for post in posts if post["id"] != post_id]`. -/
def deleteFilter (postId : Int) (posts : List Post) : List Post :=
  posts.filter (fun p => p.id != postId)

/-- `delete` (app.py lines 92-116): load, drop every post whose id
matches, save, redirect. -/
def deleteHandler (postId : Int) (file : Option Json) : Response × Option Json :=
  match loadPosts file with
  | Except.error e => (Response.serverError e, file)
  | Except.ok posts => (Response.redirect "/", savePosts (deleteFilter postId posts))

/-- app.py lines 143-145: overwrite the three mutable fields of the found
post with the `request.form.get` results (the id is untouched). -/
def updateFields (form : Form) (p : Post) : Post :=
  ⟨p.id, form.author, form.title, form.content⟩

/-- Replace the first element whose id matches, in place (the Python code
mutates the dict found by `next(...)`, i.e. the first match, inside the
loaded list). -/
def replaceFirst (postId : Int) (f : Post → Post) : List Post → List Post
  | [] => []
  | p :: ps => if p.id == postId then f p :: ps else p :: replaceFirst postId f ps

/-- `update` (app.py lines 119-152): load, find the first post with the
given id; 404 if absent (file untouched).  POST: overwrite the three
mutable fields, save, redirect.  GET: render the prefilled form. -/
def updateHandler (method : Method) (postId : Int) (form : Form)
    (file : Option Json) : Response × Option Json :=
  match loadPosts file with
  | Except.error e => (Response.serverError e, file)
  | Except.ok posts =>
    match posts.find? (fun p => p.id == postId) with
    | none => (Response.text "Post not found" 404, file)
    | some _ =>
      match method with
      | Method.post =>
        (Response.redirect "/", savePosts (replaceFirst postId (updateFields form) posts))
      | Method.get => (Response.html "update.html", file)

/-! ### Round-trip of the parse/serialize pair -/

theorem parsePost_encodePost (p : Post) : parsePost (encodePost p) = some p := by
  rcases p with ⟨i, a, t, c⟩
  cases a <;> cases t <;> cases c <;> rfl

theorem parsePostList_encode (ps : List Post) :
    parsePostList (ps.map encodePost) = some ps := by
  induction ps with
  | nil => rfl
  | cons p ps ih => simp [parsePostList, parsePost_encodePost, ih]

theorem loadPosts_savePosts (ps : List Post) :
    loadPosts (savePosts ps) = Except.ok ps := by
  simp [loadPosts, savePosts, encodePosts, parsePosts, parsePostList_encode]

/-! ### Facts about `max(ids, default=0)` -/

theorem le_foldl_max (a : Int) : ∀ l : List Int, a ≤ l.foldl max a
  | [] => le_refl a
  | c :: l => le_trans (le_max_left a c) (le_foldl_max (max a c) l)

theorem mem_le_foldl_max (x : Int) :
    ∀ (l : List Int) (a : Int), x ∈ l → x ≤ l.foldl max a := by
  intro l
  induction l with
  | nil => intro a h; cases h
  | cons c t ih =>
    intro a h
    rw [List.foldl_cons]
    rcases List.mem_cons.mp h with rfl | h
    · exact le_trans (le_max_right a x) (le_foldl_max (max a x) t)
    · exact ih (max a c) h

theorem mem_le_max?_getD {x : Int} {l : List Int} (h : x ∈ l) (d : Int) :
    x ≤ l.max?.getD d := by
  cases l with
  | nil => cases h
  | cons a t =>
    show x ≤ t.foldl max a
    rcases List.mem_cons.mp h with rfl | h
    · exact le_foldl_max x t
    · exact mem_le_foldl_max x t a h

theorem max?_getD_zero_eq_foldl {l : List Int} (h : ∀ x ∈ l, 0 ≤ x) :
    l.max?.getD 0 = l.foldl max 0 := by
  cases l with
  | nil => rfl
  | cons a t =>
    have ha : max 0 a = a := max_eq_right (h a (List.mem_cons_self a t))
    show t.foldl max a = List.foldl max 0 (a :: t)
    rw [List.foldl_cons, ha]

/-! ### Facts about `replaceFirst` -/

theorem replaceFirst_map_id (postId : Int) (f : Post → Post)
    (hf : ∀ p, (f p).id = p.id) :
    ∀ l : List Post, (replaceFirst postId f l).map Post.id = l.map Post.id := by
  intro l
  induction l with
  | nil => rfl
  | cons p ps ih =>
    by_cases hp : (p.id == postId) = true
    · simp [replaceFirst, hp, hf]
    · simp [replaceFirst, hp, ih]

theorem find?_replaceFirst_decomp (postId : Int) (f : Post → Post) :
    ∀ (l : List Post) (p : Post),
      l.find? (fun q => q.id == postId) = some p →
      ∃ pre suf, l = pre ++ p :: suf ∧
        (∀ q ∈ pre, (q.id == postId) = false) ∧
        replaceFirst postId f l = pre ++ f p :: suf := by
  intro l
  induction l with
  | nil => intro p h; simp [List.find?] at h
  | cons a t ih =>
    intro p h
    cases hb : (a.id == postId) with
    | true =>
      have hp : a = p := by simpa [List.find?_cons, hb] using h
      subst hp
      refine ⟨[], t, rfl, ?_, ?_⟩
      · intro q hq; cases hq
      · simp [replaceFirst, hb]
    | false =>
      have h' : t.find? (fun q => q.id == postId) = some p := by
        simpa [List.find?_cons, hb] using h
      obtain ⟨pre, suf, hl, hpre, hrep⟩ := ih p h'
      refine ⟨a :: pre, suf, by rw [hl, List.cons_append], ?_, ?_⟩
      · intro q hq
        rcases List.mem_cons.mp hq with rfl | hq
        · exact hb
        · exact hpre q hq
      · simp [replaceFirst, hb, hrep]

/-! ### Claim theorems -/

/-- C1: a successful POST /add assigns the new post the id
`max(existing ids, 0) + 1` (here `max(ids, 0)` is `List.foldl max 0 ids`,
the maximum of 0 and all existing ids): adding into an empty collection
yields id 1, and adding into a collection with ids {1, 3} yields id 4. -/
theorem add_assigns_next_id (form : Form) (file : Option Json) (posts : List Post)
    (hload : loadPosts file = Except.ok posts)
    (hids : ∀ p ∈ posts, 0 ≤ p.id)
    (ha : isBlank form.author = false) (ht : isBlank form.title = false)
    (hc : isBlank form.content = false) :
    addHandler Method.post form file =
      (Response.redirect "/",
       savePosts (posts ++ [⟨(posts.map Post.id).foldl max 0 + 1,
                             form.author, form.title, form.content⟩])) := by
  have hmax : (posts.map Post.id).max?.getD 0 = (posts.map Post.id).foldl max 0 := by
    refine max?_getD_zero_eq_foldl ?_
    intro x hx
    obtain ⟨p, hp, rfl⟩ := List.mem_map.mp hx
    exact hids p hp
  simp [addHandler, ha, ht, hc, hload, newPost, nextId, hmax]

/-- C1 witness: adding into the store with ids {1, 3} assigns id 4, and
adding into the empty store assigns id 1. -/
theorem add_assigns_next_id_witness :
    addHandler Method.post ⟨some "a", some "t", some "c"⟩
        (savePosts [⟨1, some "w", some "x", some "y"⟩, ⟨3, some "u", some "v", some "z"⟩]) =
      (Response.redirect "/",
       savePosts [⟨1, some "w", some "x", some "y"⟩, ⟨3, some "u", some "v", some "z"⟩,
                  ⟨4, some "a", some "t", some "c"⟩]) ∧
    addHandler Method.post ⟨some "a", some "t", some "c"⟩ none =
      (Response.redirect "/", savePosts [⟨1, some "a", some "t", some "c"⟩]) := by
  constructor
  · exact (add_assigns_next_id ⟨some "a", some "t", some "c"⟩
      (savePosts [⟨1, some "w", some "x", some "y"⟩, ⟨3, some "u", some "v", some "z"⟩])
      [⟨1, some "w", some "x", some "y"⟩, ⟨3, some "u", some "v", some "z"⟩]
      rfl (by decide) rfl rfl rfl).trans rfl
  · exact (add_assigns_next_id ⟨some "a", some "t", some "c"⟩ none []
      rfl (by decide) rfl rfl rfl).trans rfl

/-- C2: serializing the collection parsed from the backing file yields a
file that parses back to the same sequence of posts in the same order
(save after load is a no-op on content and order). -/
theorem save_load_roundtrip (j : Json) (ps : List Post)
    (_hparse : parsePosts j = some ps) :
    parsePosts (encodePosts ps) = some ps := by
  simp [parsePosts, encodePosts, parsePostList_encode]

/-- C2 witness: a concrete one-post backing file round-trips. -/
theorem save_load_roundtrip_witness :
    parsePosts (Json.arr [Json.obj [("id", Json.num 1), ("author", Json.str "A"),
        ("title", Json.str "T"), ("content", Json.str "C")]]) =
      some [⟨1, some "A", some "T", some "C"⟩] ∧
    parsePosts (encodePosts [⟨1, some "A", some "T", some "C"⟩]) =
      some [⟨1, some "A", some "T", some "C"⟩] :=
  ⟨rfl, save_load_roundtrip (Json.arr [Json.obj [("id", Json.num 1),
    ("author", Json.str "A"), ("title", Json.str "T"), ("content", Json.str "C")]])
    [⟨1, some "A", some "T", some "C"⟩] rfl⟩

/-- C3: updating an id that is not in the collection returns the 404
"Post not found" response, for POST and for GET alike, and leaves the
backing file untouched. -/
theorem update_unknown_id_404 (postId : Int) (form : Form) (file : Option Json)
    (posts : List Post) (hload : loadPosts file = Except.ok posts)
    (habs : ∀ p ∈ posts, p.id ≠ postId) :
    updateHandler Method.post postId form file = (Response.text "Post not found" 404, file) ∧
    updateHandler Method.get postId form file = (Response.text "Post not found" 404, file) := by
  have hfind : posts.find? (fun p => p.id == postId) = none := by
    refine List.find?_eq_none.mpr ?_
    intro p hp
    simpa using habs p hp
  constructor <;> simp [updateHandler, hload, hfind]

/-- C3 witness: updating id 9 on a store holding only id 2 gives 404 and
does not change the file. -/
theorem update_unknown_id_404_witness :
    updateHandler Method.post 9 ⟨some "B", some "T", some "C"⟩
        (savePosts [⟨2, some "X", some "T", some "C"⟩]) =
      (Response.text "Post not found" 404, savePosts [⟨2, some "X", some "T", some "C"⟩]) ∧
    updateHandler Method.get 9 ⟨some "B", some "T", some "C"⟩
        (savePosts [⟨2, some "X", some "T", some "C"⟩]) =
      (Response.text "Post not found" 404, savePosts [⟨2, some "X", some "T", some "C"⟩]) :=
  update_unknown_id_404 9 ⟨some "B", some "T", some "C"⟩
    (savePosts [⟨2, some "X", some "T", some "C"⟩])
    [⟨2, some "X", some "T", some "C"⟩] rfl (by decide)

/-- C4: deleting an id that is not in the collection still responds with a
redirect to the list page, and the stored collection is unchanged (same
posts, same order). -/
theorem delete_unknown_id_noop (postId : Int) (file : Option Json)
    (posts : List Post) (hload : loadPosts file = Except.ok posts)
    (habs : ∀ p ∈ posts, p.id ≠ postId) :
    deleteHandler postId file = (Response.redirect "/", savePosts posts) ∧
    loadPosts (deleteHandler postId file).2 = Except.ok posts := by
  have hfilt : deleteFilter postId posts = posts := by
    refine List.filter_eq_self.mpr ?_
    intro p hp
    simpa using habs p hp
  constructor
  · simp [deleteHandler, hload, hfilt]
  · simp [deleteHandler, hload, hfilt, loadPosts_savePosts]

/-- C4 witness: deleting id 9 from a store holding ids 1 and 2 redirects
and keeps the store equal to [id 1, id 2]. -/
theorem delete_unknown_id_noop_witness :
    deleteHandler 9 (savePosts [⟨1, some "A", some "T", some "C"⟩,
        ⟨2, some "D", some "E", some "F"⟩]) =
      (Response.redirect "/", savePosts [⟨1, some "A", some "T", some "C"⟩,
        ⟨2, some "D", some "E", some "F"⟩]) ∧
    loadPosts (deleteHandler 9 (savePosts [⟨1, some "A", some "T", some "C"⟩,
        ⟨2, some "D", some "E", some "F"⟩])).2 =
      Except.ok [⟨1, some "A", some "T", some "C"⟩, ⟨2, some "D", some "E", some "F"⟩] :=
  delete_unknown_id_noop 9 _
    [⟨1, some "A", some "T", some "C"⟩, ⟨2, some "D", some "E", some "F"⟩]
    rfl (by decide)

/-- C5: a POST /add submission with a missing or empty author, title or
content field is rejected with the 400 response "All fields are
required." and the backing file is untouched (no post is added). -/
theorem add_blank_field_rejected (form : Form) (file : Option Json)
    (h : (isBlank form.author || isBlank form.title || isBlank form.content) = true) :
    addHandler Method.post form file = (Response.text "All fields are required." 400, file) := by
  simp only [addHandler, h]
  rfl

/-- C5 witness: a submission with no author field, and one with an empty
title, are both rejected with 400 and leave the store untouched. -/
theorem add_blank_field_rejected_witness :
    (isBlank (some "") = true) ∧
    addHandler Method.post ⟨none, some "T", some "C"⟩
        (savePosts [⟨1, some "A", some "T", some "C"⟩]) =
      (Response.text "All fields are required." 400,
       savePosts [⟨1, some "A", some "T", some "C"⟩]) ∧
    addHandler Method.post ⟨some "A", some "", some "C"⟩
        (savePosts [⟨1, some "A", some "T", some "C"⟩]) =
      (Response.text "All fields are required." 400,
       savePosts [⟨1, some "A", some "T", some "C"⟩]) :=
  ⟨rfl,
   add_blank_field_rejected ⟨none, some "T", some "C"⟩ _ rfl,
   add_blank_field_rejected ⟨some "A", some "", some "C"⟩ _ rfl⟩

/-- C6: starting from an empty store (absent backing file), POST /add with
author "A", title "T", content "C" redirects and leaves a store whose
collection is exactly the one post {id 1, author "A", title "T",
content "C"}. -/
theorem add_to_empty_store_scenario :
    addHandler Method.post ⟨some "A", some "T", some "C"⟩ none =
      (Response.redirect "/", savePosts [⟨1, some "A", some "T", some "C"⟩]) ∧
    loadPosts (addHandler Method.post ⟨some "A", some "T", some "C"⟩ none).2 =
      Except.ok [⟨1, some "A", some "T", some "C"⟩] := by
  constructor <;> rfl

/-- C7 counterexample: update(2, author="B") with title and content absent
from the form, on the store [{id 2, author "X", title "T", content "C"}],
stores [{id 2, author "B", title null, content null}] — not the claimed
[{id 2, author "B", title "T", content "C"}]: the handler writes every
`form.get` result, so an unsubmitted field becomes null instead of being
left unchanged. -/
theorem update_unsubmitted_fields_nulled :
    loadPosts (updateHandler Method.post 2 ⟨some "B", none, none⟩
        (savePosts [⟨2, some "X", some "T", some "C"⟩])).2 =
      Except.ok [⟨2, some "B", none, none⟩] ∧
    ([⟨2, some "B", none, none⟩] : List Post) ≠ [⟨2, some "B", some "T", some "C"⟩] :=
  ⟨rfl, by decide⟩

/-- C7 (amended): submitting an update for an existing post overwrites
all three mutable fields with the submitted values (a field absent from
the form becomes null), keeps the id and every other post unchanged, and
redirects: the first post with the given id is replaced by
{id, form.author, form.title, form.content} in place. -/
theorem update_overwrites_submitted_fields (postId : Int) (form : Form)
    (file : Option Json) (posts : List Post) (p : Post)
    (hload : loadPosts file = Except.ok posts)
    (hfind : posts.find? (fun q => q.id == postId) = some p) :
    ∃ pre suf, posts = pre ++ p :: suf ∧
      (∀ q ∈ pre, q.id ≠ postId) ∧
      updateHandler Method.post postId form file =
        (Response.redirect "/",
         savePosts (pre ++ ⟨p.id, form.author, form.title, form.content⟩ :: suf)) := by
  obtain ⟨pre, suf, hl, hpre, hrep⟩ :=
    find?_replaceFirst_decomp postId (updateFields form) posts p hfind
  refine ⟨pre, suf, hl, ?_, ?_⟩
  · intro q hq
    simpa using hpre q hq
  · simp [updateHandler, hload, hfind, hrep, updateFields]

/-- C7 witness: the spec scenario with the full form submitted —
update(2, author="B", title="T", content="C") on
[{id 2, author "X", title "T", content "C"}] stores
[{id 2, author "B", title "T", content "C"}]. -/
theorem update_overwrites_submitted_fields_witness :
    updateHandler Method.post 2 ⟨some "B", some "T", some "C"⟩
        (savePosts [⟨2, some "X", some "T", some "C"⟩]) =
      (Response.redirect "/", savePosts [⟨2, some "B", some "T", some "C"⟩]) := by
  obtain ⟨pre, suf, hl, hpre, heq⟩ :=
    update_overwrites_submitted_fields 2 ⟨some "B", some "T", some "C"⟩
      (savePosts [⟨2, some "X", some "T", some "C"⟩])
      [⟨2, some "X", some "T", some "C"⟩] ⟨2, some "X", some "T", some "C"⟩ rfl rfl
  cases pre with
  | nil =>
    cases suf with
    | nil => simpa using heq
    | cons a l =>
      have hlen := congrArg List.length hl
      simp [List.length_append] at hlen
  | cons a l =>
    have hlen := congrArg List.length hl
    simp [List.length_append] at hlen

/-- C8: `load_posts` returns the empty sequence when the backing file is
absent, and when the file is present returns the sequence of posts parsed
from it. -/
theorem load_posts_spec :
    loadPosts none = Except.ok ([] : List Post) ∧
    ∀ (j : Json) (ps : List Post), parsePosts j = some ps →
      loadPosts (some j) = Except.ok ps := by
  refine ⟨rfl, ?_⟩
  intro j ps h
  simp [loadPosts, h]

/-- C8 witness: the absent file loads as [], and a concrete present file
loads as its parsed posts. -/
theorem load_posts_spec_witness :
    loadPosts none = Except.ok ([] : List Post) ∧
    loadPosts (some (Json.arr [Json.obj [("id", Json.num 5), ("author", Json.str "A"),
        ("title", Json.str "T"), ("content", Json.str "C")]])) =
      Except.ok [⟨5, some "A", some "T", some "C"⟩] :=
  ⟨load_posts_spec.1,
   load_posts_spec.2 (Json.arr [Json.obj [("id", Json.num 5), ("author", Json.str "A"),
     ("title", Json.str "T"), ("content", Json.str "C")]])
     [⟨5, some "A", some "T", some "C"⟩] rfl⟩

/-- C9: if all ids in the collection are distinct, then the collection
after a successful add, delete, or update also has all ids distinct; the
add moreover assigns an id strictly greater than every existing id, the
delete only removes posts, and the update never changes an id. -/
theorem ids_unique_invariant (form : Form) (postId : Int) (posts : List Post)
    (hnodup : (posts.map Post.id).Nodup) :
    (∀ p ∈ posts, p.id < nextId posts) ∧
    ((posts ++ [newPost form posts]).map Post.id).Nodup ∧
    ((deleteFilter postId posts).map Post.id).Nodup ∧
    ((replaceFirst postId (updateFields form) posts).map Post.id).Nodup := by
  have hlt : ∀ p ∈ posts, p.id < nextId posts := by
    intro p hp
    have h1 : p.id ≤ (posts.map Post.id).max?.getD 0 :=
      mem_le_max?_getD (List.mem_map_of_mem Post.id hp) 0
    have h2 : nextId posts = (posts.map Post.id).max?.getD 0 + 1 := rfl
    omega
  refine ⟨hlt, ?_, ?_, ?_⟩
  · rw [List.map_append, List.nodup_append]
    refine ⟨hnodup, List.nodup_singleton _, ?_⟩
    intro x hx hx'
    obtain ⟨p, hp, rfl⟩ := List.mem_map.mp hx
    have hx2 : Post.id p = nextId posts := by simpa [newPost] using hx'
    exact absurd hx2 (ne_of_lt (hlt p hp))
  · exact List.Nodup.sublist (List.Sublist.map Post.id (List.filter_sublist posts)) hnodup
  · rw [replaceFirst_map_id postId (updateFields form) (fun p => rfl) posts]
    exact hnodup

/-- C9 witness: on the store with distinct ids 1 and 3, the add, the
delete of id 1 and the update of id 1 all keep the ids distinct, and the
next id exceeds every existing id. -/
theorem ids_unique_invariant_witness :
    (([(⟨1, none, none, none⟩ : Post), ⟨3, none, none, none⟩].map Post.id).Nodup) ∧
    ((∀ p ∈ [(⟨1, none, none, none⟩ : Post), ⟨3, none, none, none⟩],
        p.id < nextId [⟨1, none, none, none⟩, ⟨3, none, none, none⟩]) ∧
     (([(⟨1, none, none, none⟩ : Post), ⟨3, none, none, none⟩] ++
        [newPost ⟨none, none, none⟩
          [⟨1, none, none, none⟩, ⟨3, none, none, none⟩]]).map Post.id).Nodup ∧
     ((deleteFilter 1 [⟨1, none, none, none⟩, ⟨3, none, none, none⟩]).map Post.id).Nodup ∧
     ((replaceFirst 1 (updateFields ⟨none, none, none⟩)
        [⟨1, none, none, none⟩, ⟨3, none, none, none⟩]).map Post.id).Nodup) :=
  ⟨by decide,
   ids_unique_invariant ⟨none, none, none⟩ 1
     [⟨1, none, none, none⟩, ⟨3, none, none, none⟩] (by decide)⟩

/-- C10: delete leaves exactly the subsequence of posts whose id differs
from the given id — every matching post is removed, even when a
hand-edited collection holds several posts with the same id — the
remaining posts keep their relative order, and the handler redirects. -/
theorem delete_removes_every_match (postId : Int) (file : Option Json)
    (posts : List Post) (hload : loadPosts file = Except.ok posts) :
    (deleteHandler postId file).1 = Response.redirect "/" ∧
    loadPosts (deleteHandler postId file).2 = Except.ok (deleteFilter postId posts) ∧
    (deleteFilter postId posts).Sublist posts ∧
    (∀ p, p ∈ deleteFilter postId posts ↔ (p ∈ posts ∧ p.id ≠ postId)) := by
  refine ⟨?_, ?_, List.filter_sublist posts, ?_⟩
  · simp [deleteHandler, hload]
  · simp [deleteHandler, hload, loadPosts_savePosts]
  · intro p
    simp [deleteFilter, List.mem_filter]

/-- C10 witness: deleting id 1 from the (hand-edited, duplicate-id) store
[id 1, id 2, id 1] removes both matching posts and keeps [id 2]. -/
theorem delete_removes_every_match_witness :
    (deleteHandler 1 (savePosts [⟨1, some "A", none, none⟩, ⟨2, some "B", none, none⟩,
        ⟨1, some "C", none, none⟩])).1 = Response.redirect "/" ∧
    loadPosts (deleteHandler 1 (savePosts [⟨1, some "A", none, none⟩,
        ⟨2, some "B", none, none⟩, ⟨1, some "C", none, none⟩])).2 =
      Except.ok (deleteFilter 1 [⟨1, some "A", none, none⟩, ⟨2, some "B", none, none⟩,
        ⟨1, some "C", none, none⟩]) ∧
    (deleteFilter 1 [⟨1, some "A", none, none⟩, ⟨2, some "B", none, none⟩,
        ⟨1, some "C", none, none⟩]).Sublist
      [⟨1, some "A", none, none⟩, ⟨2, some "B", none, none⟩, ⟨1, some "C", none, none⟩] ∧
    (∀ p, p ∈ deleteFilter 1 [⟨1, some "A", none, none⟩, ⟨2, some "B", none, none⟩,
        ⟨1, some "C", none, none⟩] ↔
      (p ∈ [⟨1, some "A", none, none⟩, ⟨2, some "B", none, none⟩,
        ⟨1, some "C", none, none⟩] ∧ p.id ≠ 1)) :=
  delete_removes_every_match 1
    (savePosts [⟨1, some "A", none, none⟩, ⟨2, some "B", none, none⟩,
      ⟨1, some "C", none, none⟩])
    [⟨1, some "A", none, none⟩, ⟨2, some "B", none, none⟩, ⟨1, some "C", none, none⟩]
    rfl
